import Mathlib

/-!
Shallow embedding of the two fragment-animation scripts of
`sergeche/gpu-article-assets`:

* `src/apply-anim.js` — the simple variant: split the URL fragment on `:`,
  treat token 0 as a CSS selector and token 1 as a class name, and add the
  class to every matching element.
* `src/examples/apply-anim.js` — the language-aware variant: additionally
  test the first token against the regex `/^ru|en$/` (note the precedence:
  this is `(^ru)|(en$)`), shift it off as the language when it matches,
  default to `"en"` otherwise, and unconditionally write the `lang`
  attribute of the document root.

The DOM is modelled at two levels of precision.  The first model
(`Element`, `Doc`) gives each element a fixed selector-matching predicate
and its class list (a `DOMTokenList` token set, duplicate-free in a real
DOM, modelled as a list of strings with set-like insertion); it captures a
single run exactly, because `querySelectorAll` returns a static `NodeList`
computed before the mutation loop.  Across two runs, however, the second
`querySelectorAll` re-evaluates the selector against the mutated class
attributes, so a class-sensitive selector can match more elements the
second time.  The second model (`ElementL`, `DocL`, `SelSem`) makes this
precise: selector matching is a function of the selector, the whole
current element list and the element's position, re-evaluated at the start
of each run.  Cross-run properties (idempotence) are stated over the
second model.
-/

/-- JS `String.prototype.split(sep)` for a single-character separator,
on the character-list level: `"".split(":") = [""]`,
`":".split(":") = ["", ""]`, `"a:b".split(":") = ["a", "b"]`. -/
def splitOnChar (sep : Char) : List Char → List (List Char)
  | [] => [[]]
  | c :: cs =>
    let rest := splitOnChar sep cs
    if c = sep then [] :: rest
    else
      match rest with
      | [] => [[c]]
      | r :: rs => (c :: r) :: rs

/-- `anim.split(':')` from both scripts, lifted to `String`. -/
def jsSplitColon (s : String) : List String :=
  (splitOnChar ':' s.data).map (fun cs => String.mk cs)

/-- Removal of the first `'#'` character, as in
`location.hash.replace('#', '')` (JS `replace` with a string pattern
replaces only the first occurrence). -/
def removeFirstHash : List Char → List Char
  | [] => []
  | c :: cs => if c = '#' then cs else c :: removeFirstHash cs

/-- `location.hash.replace('#', '')` on `String`. -/
def stripHash (h : String) : String :=
  String.mk (removeFirstHash h.data)

/-- Test of a two-character run at the head of a character list. -/
def startsWith2 (a b : Char) : List Char → Bool
  | c1 :: c2 :: _ => c1 = a && c2 = b
  | _ => false

/-- `supportedLangs.test s` for `var supportedLangs = /^ru|en$/` in
`src/examples/apply-anim.js`.  Regex alternation binds loosest, so the
pattern is `(^ru)|(en$)`: the test succeeds when the string starts with
`"ru"` or ends with `"en"`. -/
def supportedLangsTest (s : String) : Bool :=
  startsWith2 'r' 'u' s.data || startsWith2 'n' 'e' s.data.reverse

/-- JS truthiness of `parts[i]`: `undefined` and `""` are falsy, every
other string is truthy. -/
def truthy : Option String → Bool
  | none => false
  | some s => s != ""

/-- `classList.add(c)`: a `DOMTokenList` is a token set, so `add` appends
the token only when it is not already present. -/
def classListAdd (c : String) (classes : List String) : List String :=
  if c ∈ classes then classes else classes ++ [c]

/-- An element in the per-run snapshot model: an abstract answer to
`document.querySelectorAll` membership (does this element match a given
selector string?) together with its class list.  The predicate is fixed,
which is faithful within one run (`querySelectorAll` evaluates it once,
before the mutation loop) but not across runs; cross-run statements use
`ElementL` below instead. -/
structure Element where
  matchesSel : String → Bool
  classes : List String

/-- The document: the root element's `lang` attribute (`none` when the
attribute is absent) and the elements in document order. -/
structure Doc where
  lang : Option String
  elems : List Element

/-- The per-element effect of the `querySelectorAll` + `classList.add`
loop: an element matching the selector gains the class, any other element
is untouched. -/
def markElem (sel cls : String) (e : Element) : Element :=
  if e.matchesSel sel then { e with classes := classListAdd cls e.classes } else e

/-- `var items = document.querySelectorAll(elem); for (...) items[i].classList.add(animClass)`:
add `cls` to the class list of every element matching `sel`. -/
def addClassAll (sel cls : String) (d : Doc) : Doc :=
  { d with elems := d.elems.map (markElem sel cls) }

/-- The simple variant `src/apply-anim.js`, run on the already-stripped
fragment string `anim`:

```js
var anim = location.hash.replace('#', '');
if (!anim) { return; }
var parts = anim.split(':');
var elem = parts[0];
var animClass = parts[1];
if (elem && animClass) {
  var items = document.querySelectorAll(elem);
  for (var i = 0; i < items.length; i++) items[i].classList.add(animClass);
}
```
-/
def applySimple (anim : String) (d : Doc) : Doc :=
  if anim = "" then d
  else
    let parts := jsSplitColon anim
    if truthy (parts.get? 0) && truthy (parts.get? 1) then
      addClassAll ((parts.get? 0).getD "") ((parts.get? 1).getD "") d
    else d

/-- The language-aware variant `src/examples/apply-anim.js`, run on the
already-stripped fragment string `anim`:

```js
var supportedLangs = /^ru|en$/;
var anim = location.hash.replace('#', '');
if (!anim) { return; }
var parts = anim.split(':');
var lang = supportedLangs.test(parts[0] || '') ? parts.shift() : 'en';
var elem = parts[0];
var animClass = parts[1];
document.documentElement.setAttribute('lang', lang);
if (elem && animClass) {
  var items = document.querySelectorAll(elem);
  for (var i = 0; i < items.length; i++) items[i].classList.add(animClass);
}
```
-/
def applyLang (anim : String) (d : Doc) : Doc :=
  if anim = "" then d
  else
    let parts := jsSplitColon anim
    let test := supportedLangsTest ((parts.get? 0).getD "")
    let lang := if test then (parts.get? 0).getD "" else "en"
    let parts2 := if test then parts.tail else parts
    let d1 : Doc := { d with lang := some lang }
    if truthy (parts2.get? 0) && truthy (parts2.get? 1) then
      addClassAll ((parts2.get? 0).getD "") ((parts2.get? 1).getD "") d1
    else d1

/-- The simple variant on the raw `location.hash` value. -/
def runSimple (hash : String) (d : Doc) : Doc :=
  applySimple (stripHash hash) d

/-- The language-aware variant on the raw `location.hash` value. -/
def runLang (hash : String) (d : Doc) : Doc :=
  applyLang (stripHash hash) d

/-- The token sequence remaining after the language-aware variant's
optional `parts.shift()`. -/
def partsAfterLang (anim : String) : List String :=
  let parts := jsSplitColon anim
  if supportedLangsTest ((parts.get? 0).getD "") then parts.tail else parts

/-- The `elem && animClass` guard: a token sequence yields at least two
non-empty usable tokens. -/
def usable2 (parts : List String) : Bool :=
  truthy (parts.get? 0) && truthy (parts.get? 1)

/-- Token `i` of the fragment split on `:` (empty string when absent). -/
def tok (i : Nat) (anim : String) : String :=
  ((jsSplitColon anim).get? i).getD ""

/-- The value the language-aware variant writes into the `lang`
attribute: the shifted first token when the regex test passes, the
fallback `"en"` otherwise. -/
def langOf (anim : String) : String :=
  if supportedLangsTest (tok 0 anim) then tok 0 anim else "en"

/-- A sample element matching exactly the selector string `".a"`. -/
def elemA : Element :=
  { matchesSel := fun s => s == ".a", classes := [] }

/-- A sample document whose root carries `lang="fr"` and holds `elemA`. -/
def dFr : Doc :=
  { lang := some "fr", elems := [elemA] }

/-- Selector token used by the language-aware variant (`parts[0]` after
the optional `shift`). -/
def langSel (anim : String) : String :=
  ((partsAfterLang anim).get? 0).getD ""

/-- Class-name token used by the language-aware variant (`parts[1]` after
the optional `shift`). -/
def langCls (anim : String) : String :=
  ((partsAfterLang anim).get? 1).getD ""

/-- An element in the live-matching model: its tag name and its class
list.  Selector matching is not stored on the element; it is re-evaluated
against the current document by a `SelSem`. -/
structure ElementL where
  tag : String
  classes : List String
deriving DecidableEq

/-- A document in the live-matching model. -/
structure DocL where
  lang : Option String
  elems : List ElementL
deriving DecidableEq

/-- A selector semantics: given a selector string, the current element
list (in document order) and an element's position, does that element
match?  Matching an element may depend on other elements' classes, as for
the CSS sibling combinators, which is the source of cross-run
non-idempotence. -/
def SelSem : Type :=
  String → List ElementL → Nat → Bool

/-- `classList.add` on a live-model element. -/
def markElemL (cls : String) (e : ElementL) : ElementL :=
  { e with classes := classListAdd cls e.classes }

/-- One pass of the `for` loop over the static `NodeList`: element at
position `n + j` gains the class when `cond (n + j)` holds.  `cond` is the
match vector computed by `querySelectorAll` before the loop, so mutations
performed by the loop itself do not change it. -/
def updateLive (cond : Nat → Bool) (cls : String) : Nat → List ElementL → List ElementL
  | _, [] => []
  | n, e :: es => (if cond n then markElemL cls e else e) :: updateLive cond cls (n + 1) es

/-- `document.querySelectorAll(sel)` followed by the class-adding loop, in
the live-matching model: the match vector is evaluated against the current
`d.elems` once, then every matched element gains `cls`. -/
def addClassAllLive (sem : SelSem) (sel cls : String) (d : DocL) : DocL :=
  { d with elems := updateLive (sem sel d.elems) cls 0 d.elems }

/-- The simple variant `src/apply-anim.js` in the live-matching model. -/
def applySimpleLive (sem : SelSem) (anim : String) (d : DocL) : DocL :=
  if anim = "" then d
  else
    let parts := jsSplitColon anim
    if truthy (parts.get? 0) && truthy (parts.get? 1) then
      addClassAllLive sem ((parts.get? 0).getD "") ((parts.get? 1).getD "") d
    else d

/-- The language-aware variant `src/examples/apply-anim.js` in the
live-matching model. -/
def applyLangLive (sem : SelSem) (anim : String) (d : DocL) : DocL :=
  if anim = "" then d
  else
    let parts := jsSplitColon anim
    let test := supportedLangsTest ((parts.get? 0).getD "")
    let lang := if test then (parts.get? 0).getD "" else "en"
    let parts2 := if test then parts.tail else parts
    let d1 : DocL := { d with lang := some lang }
    if truthy (parts2.get? 0) && truthy (parts2.get? 1) then
      addClassAllLive sem ((parts2.get? 0).getD "") ((parts2.get? 1).getD "") d1
    else d1

/-- The match vector a run computes for `sel` over `elems`: one Boolean
per element position. -/
def matchVec (sem : SelSem) (sel : String) (elems : List ElementL) : List Bool :=
  (List.range elems.length).map (sem sel elems)

/-- Modelled from the CSS selector specification: the semantics of the
one selector `"[class~=c]+div"` — an element matches when it has tag
`div` and its immediately preceding sibling's class attribute contains the
token `c`.  Every other selector string is given no matches. -/
def cssSem : SelSem := fun sel elems i =>
  if sel = "[class~=c]+div" then
    match i with
    | 0 => false
    | j + 1 =>
      (match elems.get? j with
       | some p => p.classes.contains "c"
       | none => false)
      && (match elems.get? (j + 1) with
          | some e => e.tag == "div"
          | none => false)
  else false

/-- A selector semantics for bare tag-name selectors: an element matches
exactly when its tag equals the selector string.  It never looks at class
lists, so its match vectors are unchanged by class mutations. -/
def semTag : SelSem := fun sel elems i =>
  match elems.get? i with
  | some e => e.tag == sel
  | none => false

/-- A sibling document `<span class="c"><div><div>`: the first `div` has
a `class~=c` preceding sibling from the start, the second acquires one
only after a first run adds the class to the first `div`. -/
def dSib : DocL :=
  { lang := none, elems := [⟨"span", ["c"]⟩, ⟨"div", []⟩, ⟨"div", []⟩] }

/-- A two-element live-model document used for witnesses. -/
def dW : DocL :=
  { lang := none, elems := [⟨"div", []⟩, ⟨"span", []⟩] }

lemma mem_classListAdd (c : String) (l : List String) : c ∈ classListAdd c l := by
  unfold classListAdd
  by_cases hc : c ∈ l
  · simp [hc]
  · simp [hc]

lemma classListAdd_idem (c : String) (l : List String) :
    classListAdd c (classListAdd c l) = classListAdd c l := by
  unfold classListAdd
  by_cases hc : c ∈ l
  · simp [hc]
  · simp [hc]

lemma classListAdd_count (c : String) (l : List String) (h : l.Nodup) :
    (classListAdd c l).count c = 1 := by
  unfold classListAdd
  by_cases hc : c ∈ l
  · simpa [hc] using List.count_eq_one_of_mem h hc
  · simp [hc, List.count_append, List.count_eq_zero_of_not_mem hc]

lemma classListAdd_nodup (c : String) (l : List String) (h : l.Nodup) :
    (classListAdd c l).Nodup := by
  unfold classListAdd
  by_cases hc : c ∈ l
  · simpa [hc]
  · simp [hc, List.nodup_append, h]

lemma cls_mem_of_markElem (sel cls : String) (l : List Element) :
    ∀ e ∈ l.map (markElem sel cls), e.matchesSel sel = true → cls ∈ e.classes := by
  intro e he hm
  rcases List.mem_map.1 he with ⟨a, _, rfl⟩
  by_cases h : a.matchesSel sel = true
  · simp [markElem, h, mem_classListAdd]
  · rw [markElem, if_neg] at hm
    · exact absurd hm h
    · simpa using h

lemma applySimple_eq (anim : String) (d : Doc) (h : anim ≠ "") :
    applySimple anim d =
      if usable2 (jsSplitColon anim) then addClassAll (tok 0 anim) (tok 1 anim) d else d := by
  simp only [applySimple, usable2, tok, if_neg h]

lemma applyLang_eq (anim : String) (d : Doc) (h : anim ≠ "") :
    applyLang anim d =
      if usable2 (partsAfterLang anim) then
        addClassAll (((partsAfterLang anim).get? 0).getD "")
          (((partsAfterLang anim).get? 1).getD "") { d with lang := some (langOf anim) }
      else { d with lang := some (langOf anim) } := by
  simp only [applyLang, partsAfterLang, usable2, langOf, tok, if_neg h]

lemma applyLang_lang (anim : String) (d : Doc) (h : anim ≠ "") :
    (applyLang anim d).lang = some (langOf anim) := by
  rw [applyLang_eq anim d h]
  by_cases hg : usable2 (partsAfterLang anim) = true
  · simp [hg, addClassAll]
  · simp [hg]

lemma markElemL_idem (cls : String) (e : ElementL) :
    markElemL cls (markElemL cls e) = markElemL cls e := by
  simp [markElemL, classListAdd_idem]

lemma updateLive_length (cond : Nat → Bool) (cls : String) (n : Nat) (l : List ElementL) :
    (updateLive cond cls n l).length = l.length := by
  induction l generalizing n with
  | nil => rfl
  | cons e es ih => simp [updateLive, ih]

lemma updateLive_idem_of (cls : String) (c1 c2 : Nat → Bool) (n : Nat) (l : List ElementL)
    (h : ∀ j, j < l.length → c1 (n + j) = c2 (n + j)) :
    updateLive c1 cls n (updateLive c2 cls n l) = updateLive c2 cls n l := by
  induction l generalizing n with
  | nil => rfl
  | cons e es ih =>
    have h0 : c1 n = c2 n := by simpa using h 0 (by simp)
    simp only [updateLive]
    congr 1
    · rw [h0]
      by_cases hcn : c2 n = true
      · simp [hcn, markElemL_idem]
      · simp [hcn]
    · refine ih (n + 1) (fun j hj => ?_)
      have hs : n + (j + 1) = n + 1 + j := by omega
      have := h (j + 1) (by simpa using Nat.succ_lt_succ hj)
      rwa [hs] at this

lemma addClassAllLive_length (sem : SelSem) (sel cls : String) (d : DocL) :
    (addClassAllLive sem sel cls d).elems.length = d.elems.length :=
  updateLive_length _ _ _ _

lemma matchVec_pointwise (sem : SelSem) (sel : String) (e1 e2 : List ElementL)
    (hlen : e1.length = e2.length)
    (h : matchVec sem sel e1 = matchVec sem sel e2) :
    ∀ j, j < e2.length → sem sel e1 j = sem sel e2 j := by
  intro j hj
  have h1 := congrArg (fun l => l[j]?) h
  simp only [matchVec, List.getElem?_map] at h1
  rw [List.getElem?_range (hlen ▸ hj), List.getElem?_range hj] at h1
  simpa using h1

lemma applySimpleLive_eq (sem : SelSem) (anim : String) (d : DocL) (h : anim ≠ "") :
    applySimpleLive sem anim d =
      if usable2 (jsSplitColon anim) then
        addClassAllLive sem (tok 0 anim) (tok 1 anim) d
      else d := by
  simp only [applySimpleLive, usable2, tok, if_neg h]

lemma applyLangLive_eq (sem : SelSem) (anim : String) (d : DocL) (h : anim ≠ "") :
    applyLangLive sem anim d =
      if usable2 (partsAfterLang anim) then
        addClassAllLive sem (langSel anim) (langCls anim) { d with lang := some (langOf anim) }
      else { d with lang := some (langOf anim) } := by
  simp only [applyLangLive, partsAfterLang, usable2, langOf, langSel, langCls, tok, if_neg h]

lemma addClassAllLive_idem_of (sem : SelSem) (sel cls : String) (d : DocL)
    (h : ∀ j, j < d.elems.length →
      sem sel (addClassAllLive sem sel cls d).elems j = sem sel d.elems j) :
    addClassAllLive sem sel cls (addClassAllLive sem sel cls d) = addClassAllLive sem sel cls d := by
  unfold addClassAllLive
  congr 1
  exact updateLive_idem_of cls _ _ 0 d.elems (fun j hj => by simpa using h j hj)

lemma applySimpleLive_idem_of_stable (sem : SelSem) (anim : String) (d : DocL)
    (hm : matchVec sem (tok 0 anim) (applySimpleLive sem anim d).elems
        = matchVec sem (tok 0 anim) d.elems) :
    applySimpleLive sem anim (applySimpleLive sem anim d) = applySimpleLive sem anim d := by
  by_cases h : anim = ""
  · simp [applySimpleLive, h]
  · rw [applySimpleLive_eq sem anim d h] at hm ⊢
    rw [applySimpleLive_eq sem anim _ h]
    by_cases hg : usable2 (jsSplitColon anim) = true
    · rw [if_pos hg] at hm ⊢
      rw [if_pos hg]
      exact addClassAllLive_idem_of sem _ _ d
        (matchVec_pointwise sem _ _ _ (addClassAllLive_length sem _ _ d) hm)
    · simp [hg]

lemma applyLangLive_idem_of_stable (sem : SelSem) (anim : String) (d : DocL)
    (hm : matchVec sem (langSel anim) (applyLangLive sem anim d).elems
        = matchVec sem (langSel anim) d.elems) :
    applyLangLive sem anim (applyLangLive sem anim d) = applyLangLive sem anim d := by
  by_cases h : anim = ""
  · simp [applyLangLive, h]
  · rw [applyLangLive_eq sem anim d h] at hm ⊢
    rw [applyLangLive_eq sem anim _ h]
    by_cases hg : usable2 (partsAfterLang anim) = true
    · rw [if_pos hg] at hm ⊢
      rw [if_pos hg]
      exact addClassAllLive_idem_of sem _ _ { d with lang := some (langOf anim) }
        (matchVec_pointwise sem _ _ _ (addClassAllLive_length sem _ _ _) hm)
    · rw [if_neg hg] at hm ⊢
      rw [if_neg hg]

/-- C1 (counter-evidence for the code bug): the claim says the first token
is consumed as the language value iff it is exactly `"ru"` or `"en"`.  The
code's test `/^ru|en$/` parses as `(^ru)|(en$)`, so the token `"russian"`
(neither `"ru"` nor `"en"`) passes the test, is shifted off, and becomes
the `lang` value, while `".a"` becomes the selector and still receives the
class. -/
theorem claim_C1_lang_token_consumption :
    supportedLangsTest "russian" = true
  ∧ ("russian" ≠ "ru" ∧ "russian" ≠ "en")
  ∧ (applyLang "russian:.a:anim-left" dFr).lang = some "russian"
  ∧ (applyLang "russian:.a:anim-left" dFr).elems.map Element.classes = [["anim-left"]] :=
  ⟨by decide, by decide, rfl, rfl⟩

/-- C2: for the fragment `"en:.a:anim-left"` the language-aware variant
sets the root `lang` attribute to `"en"` and every element matching `".a"`
gains class `"anim-left"`; for `"ru:.b:anim-translate"` the attribute
becomes `"ru"` and every element matching `".b"` gains
`"anim-translate"`. -/
theorem claim_C2_en_ru_fragments : ∀ (d : Doc),
    (applyLang "en:.a:anim-left" d).lang = some "en"
  ∧ (applyLang "en:.a:anim-left" d).elems = d.elems.map (markElem ".a" "anim-left")
  ∧ (∀ e ∈ (applyLang "en:.a:anim-left" d).elems, e.matchesSel ".a" = true → "anim-left" ∈ e.classes)
  ∧ (applyLang "ru:.b:anim-translate" d).lang = some "ru"
  ∧ (applyLang "ru:.b:anim-translate" d).elems = d.elems.map (markElem ".b" "anim-translate")
  ∧ (∀ e ∈ (applyLang "ru:.b:anim-translate" d).elems, e.matchesSel ".b" = true → "anim-translate" ∈ e.classes) := by
  intro d
  exact ⟨rfl, rfl, cls_mem_of_markElem ".a" "anim-left" d.elems,
         rfl, rfl, cls_mem_of_markElem ".b" "anim-translate" d.elems⟩

/-- C3 (counterexample): the claim says that without a recognized language
code as first token the root `lang` attribute is not mutated.  On the
fragment `".a:anim-left"` (first token `".a"` fails the language test) the
language-aware variant nevertheless overwrites `lang="fr"` with
`lang="en"`: `setAttribute('lang', lang)` runs unconditionally. -/
theorem claim_C3_cex :
    supportedLangsTest (tok 0 ".a:anim-left") = false
  ∧ (applyLang ".a:anim-left" dFr).lang ≠ dFr.lang :=
  ⟨rfl, by decide⟩

/-- C3 (amended): the `lang` attribute of the root is mutated for every
non-empty fragment, whatever its first token: the final value is
`some (langOf anim)` regardless of the attribute's previous value — the
first token itself whenever it passes the `/^ru|en$/` test (including
tokens that are not recognized codes, such as `"ru-RU"` or `"chicken"`),
and the fallback `"en"` whenever it fails the test.  The whole document,
attribute included, keeps its previous state exactly when the fragment is
empty. -/
theorem claim_C3_lang_always_written : ∀ (anim : String) (d : Doc),
    (anim = "" → applyLang anim d = d)
  ∧ (anim ≠ "" → (applyLang anim d).lang = some (langOf anim))
  ∧ (anim ≠ "" → supportedLangsTest (tok 0 anim) = true →
      (applyLang anim d).lang = some (tok 0 anim))
  ∧ (anim ≠ "" → supportedLangsTest (tok 0 anim) = false →
      (applyLang anim d).lang = some "en") := by
  intro anim d
  refine ⟨fun h => by simp [applyLang, h], fun h => applyLang_lang anim d h, ?_, ?_⟩
  · intro h ht
    rw [applyLang_lang anim d h]
    simp [langOf, ht]
  · intro h hf
    rw [applyLang_lang anim d h]
    simp [langOf, hf]

/-- C3 (witness): the amended statement instantiated at the empty
fragment, at a first token failing the test (`"title"`), at a consumed
non-code token (`"ru-RU"`, passing via `^ru`), and at a selector-first
fragment (`".c"`), all on the sample document with `lang="fr"`. -/
theorem claim_C3_witness :
    applyLang "" dFr = dFr
  ∧ (applyLang "title:.c:anim-scale" dFr).lang = some "en"
  ∧ (applyLang "ru-RU:.c:anim-scale" dFr).lang = some "ru-RU"
  ∧ (applyLang ".c:anim-scale" dFr).lang = some "en" :=
  ⟨(claim_C3_lang_always_written "" dFr).1 rfl,
   (claim_C3_lang_always_written "title:.c:anim-scale" dFr).2.1 (by decide),
   (claim_C3_lang_always_written "ru-RU:.c:anim-scale" dFr).2.2.1 (by decide) (by decide),
   (claim_C3_lang_always_written ".c:anim-scale" dFr).2.2.2 (by decide) (by decide)⟩

/-- C4 (counter-evidence for the code bug): the claim says a first token
that is not a recognized language code is kept as the selector and the
`lang` attribute defaults to `"en"`.  The token `"chicken"` is neither
`"ru"` nor `"en"`, yet it matches the `en$` half of `/^ru|en$/`, so the
code consumes it and sets `lang="chicken"` instead of the fallback, and
`".a"` becomes the selector. -/
theorem claim_C4_fallback_not_applied :
    supportedLangsTest "chicken" = true
  ∧ ("chicken" ≠ "ru" ∧ "chicken" ≠ "en")
  ∧ (applyLang "chicken:.a:anim-left" dFr).lang = some "chicken"
  ∧ (applyLang "chicken:.a:anim-left" dFr).lang ≠ some "en"
  ∧ (applyLang "chicken:.a:anim-left" dFr).elems.map Element.classes = [["anim-left"]] :=
  ⟨by decide, by decide, rfl, by decide, rfl⟩

/-- C5: on the empty (absent) fragment both variants terminate without any
side effect: the document, including its `lang` attribute and every class
list, is returned unchanged. -/
theorem claim_C5_empty_noop : ∀ (d : Doc), applySimple "" d = d ∧ applyLang "" d = d :=
  fun _ => ⟨rfl, rfl⟩

/-- C6 (counterexample): the claim says a fragment with fewer than two
usable tokens is a silent no-op in either variant.  The fragment `".a"`
yields a single usable token in both variants, yet the language-aware
variant still mutates the DOM: it overwrites `lang="fr"` with
`lang="en"`. -/
theorem claim_C6_cex :
    usable2 (partsAfterLang ".a") = false
  ∧ usable2 (jsSplitColon ".a") = false
  ∧ (applyLang ".a" dFr).lang ≠ dFr.lang :=
  ⟨rfl, rfl, by decide⟩

/-- C6 (amended): a fragment with fewer than two non-empty usable tokens
causes no class-list mutation in either variant, and only the simple
variant is then a silent no-op: the language-aware variant writes the
`lang` attribute (with value `langOf anim`) for every non-empty fragment,
so its run is never silent. -/
theorem claim_C6_no_class_mutation : ∀ (anim : String) (d : Doc),
    (usable2 (jsSplitColon anim) = false → applySimple anim d = d)
  ∧ (usable2 (partsAfterLang anim) = false → (applyLang anim d).elems = d.elems)
  ∧ (anim ≠ "" → (applyLang anim d).lang = some (langOf anim)) := by
  intro anim d
  refine ⟨?_, ?_, fun h => applyLang_lang anim d h⟩
  · intro hg
    by_cases h : anim = ""
    · simp [applySimple, h]
    · rw [applySimple_eq anim d h]; simp [hg]
  · intro hg
    by_cases h : anim = ""
    · simp [applyLang, h]
    · rw [applyLang_eq anim d h]; simp [hg]

/-- C6 (witness): the amended statement instantiated at the one-token
fragment `"onlyselector"` on the sample document: no class mutation in
either variant, yet the language-aware variant still writes
`lang="en"`. -/
theorem claim_C6_witness :
    applySimple "onlyselector" dFr = dFr
  ∧ (applyLang "onlyselector" dFr).elems = dFr.elems
  ∧ (applyLang "onlyselector" dFr).lang = some "en" :=
  ⟨(claim_C6_no_class_mutation "onlyselector" dFr).1 (by decide),
   (claim_C6_no_class_mutation "onlyselector" dFr).2.1 (by decide),
   (claim_C6_no_class_mutation "onlyselector" dFr).2.2 (by decide)⟩

/-- C7 (counterexample): running the program twice is not equal to
running it once for every fragment and DOM.  On the sibling document
`<span class="c"><div><div>` with fragment `"[class~=c]+div:c"`, the first
run matches only the first `div` (its preceding sibling carries class
`c`) and adds class `c` to it; the second run re-evaluates the selector
against the mutated classes and now also matches the second `div`, which
gains class `c` — so the two-run result differs from the one-run
result. -/
theorem claim_C7_cex :
    (applySimpleLive cssSem "[class~=c]+div:c" dSib).elems.map ElementL.classes
      = [["c"], ["c"], []]
  ∧ (applySimpleLive cssSem "[class~=c]+div:c"
      (applySimpleLive cssSem "[class~=c]+div:c" dSib)).elems.map ElementL.classes
      = [["c"], ["c"], ["c"]]
  ∧ applySimpleLive cssSem "[class~=c]+div:c"
      (applySimpleLive cssSem "[class~=c]+div:c" dSib)
      ≠ applySimpleLive cssSem "[class~=c]+div:c" dSib :=
  ⟨rfl, rfl, by decide⟩

/-- C7 (amended): for every selector semantics, fragment and DOM, running
a variant twice equals running it once provided the first run leaves the
selector's match vector unchanged (as it does for any selector insensitive
to the added class); and `classList.add` has set semantics — on a
duplicate-free class list the added class ends up present exactly once and
the list stays duplicate-free.  Without the proviso, idempotence fails: a
class-sensitive sibling selector can match additional elements on the
second run. -/
theorem claim_C7_stable_idempotent : ∀ (sem : SelSem) (anim : String) (d : DocL),
    (matchVec sem (tok 0 anim) (applySimpleLive sem anim d).elems
        = matchVec sem (tok 0 anim) d.elems →
      applySimpleLive sem anim (applySimpleLive sem anim d) = applySimpleLive sem anim d)
  ∧ (matchVec sem (langSel anim) (applyLangLive sem anim d).elems
        = matchVec sem (langSel anim) d.elems →
      applyLangLive sem anim (applyLangLive sem anim d) = applyLangLive sem anim d)
  ∧ (∀ (c : String) (l : List String), l.Nodup →
      (classListAdd c l).count c = 1 ∧ (classListAdd c l).Nodup) :=
  fun sem anim d =>
    ⟨applySimpleLive_idem_of_stable sem anim d,
     applyLangLive_idem_of_stable sem anim d,
     fun c l h => ⟨classListAdd_count c l h, classListAdd_nodup c l h⟩⟩

/-- C7 (witness): the amended statement instantiated at the class-blind
tag semantics `semTag`, fragment `"div:c"` and the two-element document
`dW`, with the match-vector stability and `Nodup` hypotheses discharged by
evaluation. -/
theorem claim_C7_witness :
    applySimpleLive semTag "div:c" (applySimpleLive semTag "div:c" dW)
      = applySimpleLive semTag "div:c" dW
  ∧ applyLangLive semTag "div:c" (applyLangLive semTag "div:c" dW)
      = applyLangLive semTag "div:c" dW
  ∧ ((classListAdd "c" ["base"]).count "c" = 1 ∧ (classListAdd "c" ["base"]).Nodup) :=
  ⟨(claim_C7_stable_idempotent semTag "div:c" dW).1 (by decide),
   (claim_C7_stable_idempotent semTag "div:c" dW).2.1 (by decide),
   (claim_C7_stable_idempotent semTag "div:c" dW).2.2 "c" ["base"] (by decide)⟩

/-- C8: in the simple variant the fragment `".a:anim-left"` makes every
element matching `".a"` gain class `"anim-left"` — the per-element effect
`markElem ".a" "anim-left"` is the very one of the language-aware example
— and the `lang` attribute is untouched. -/
theorem claim_C8_simple_fragment : ∀ (d : Doc),
    (applySimple ".a:anim-left" d).elems = d.elems.map (markElem ".a" "anim-left")
  ∧ (∀ e ∈ (applySimple ".a:anim-left" d).elems, e.matchesSel ".a" = true → "anim-left" ∈ e.classes)
  ∧ (applySimple ".a:anim-left" d).lang = d.lang :=
  fun d => ⟨rfl, cls_mem_of_markElem ".a" "anim-left" d.elems, rfl⟩

/-- C9: both variants are deterministic — two runs on the same fragment
string and the same initial document produce identical documents (language
attribute and class lists included). -/
theorem claim_C9_deterministic : ∀ (anim1 anim2 : String) (d1 d2 : Doc),
    anim1 = anim2 → d1 = d2 →
      applySimple anim1 d1 = applySimple anim2 d2 ∧ applyLang anim1 d1 = applyLang anim2 d2 := by
  intro a1 a2 d1 d2 ha hd
  subst ha; subst hd
  exact ⟨rfl, rfl⟩

/-- C9 (witness): determinism instantiated at the fragment
`"en:.a:anim-left"` on the sample document. -/
theorem claim_C9_witness :
    applySimple "en:.a:anim-left" dFr = applySimple "en:.a:anim-left" dFr
  ∧ applyLang "en:.a:anim-left" dFr = applyLang "en:.a:anim-left" dFr :=
  claim_C9_deterministic "en:.a:anim-left" "en:.a:anim-left" dFr dFr rfl rfl

/-- C10: the simple variant never touches the `lang` attribute, and its
only effect is adding the class-name token (token 1) to the class list of
every element matching the selector token (token 0), and only when both
tokens are usable. -/
theorem claim_C10_simple_frame : ∀ (anim : String) (d : Doc),
    (applySimple anim d).lang = d.lang
  ∧ (applySimple anim d).elems =
      (if usable2 (jsSplitColon anim) then d.elems.map (markElem (tok 0 anim) (tok 1 anim)) else d.elems) := by
  intro anim d
  by_cases h : anim = ""
  · subst h
    have hu : usable2 (jsSplitColon "") = false := rfl
    constructor
    · rfl
    · simp [applySimple, hu]
  · rw [applySimple_eq anim d h]
    by_cases hg : usable2 (jsSplitColon anim) = true
    · exact ⟨by simp [hg, addClassAll], by simp [hg, addClassAll]⟩
    · simp [hg]
